import Mathlib

/-!
Verification of the risk engine of the stroke-risk tracking repository.

Embedded source functions:
* `calculate_risk_score`    — `src/backend/api/patients/routes.py`, lines 62–108.
* `_determine_risk_level`   — `src/ml_model/update_data.py` (Policy B classifier).
* `update_all_patients_risk_scores` — `src/ml_model/update_data.py` batch driver,
  embedded as `sweepLoop` / `update_all_patients_risk_scores` below.
* `update_single_patient_risk_score` — `src/ml_model/update_data.py`.

Modelling conventions: a Python dict key that may be absent is an `Option`
field (`none` = key absent / value `None`); numeric attribute values are
modelled over `ℚ` (the code only compares and adds them); Python exceptions
are modelled explicitly with `Except` at the point where the source has a
`try`/`except`; wall-clock timestamp fields (`risk_updated_at`,
`updated_at`) carry no information any claim depends on and are outside
the model.
-/

/-- Attribute map passed to `calculate_risk_score` in
`backend/api/patients/routes.py`.  Each field is `Option`-valued: `none`
models a key absent from the dict (the code reads every key with
`dict.get`, which never raises). -/
structure PatientData where
  age : Option ℚ := none
  hypertension : Option Int := none
  heart_disease : Option Int := none
  avg_glucose_level : Option ℚ := none
  bmi : Option ℚ := none
  smoking_status : Option String := none
  gender : Option String := none
deriving DecidableEq

/-- `calculate_risk_score` from `backend/api/patients/routes.py` (lines
62–108), translated clause by clause.  `patient_data.get('age', 0)` is
`patient_data.age.getD 0`; `patient_data.get('hypertension') == 1` is
`patient_data.hypertension = some 1` (in Python `None == 1` is `False`);
the successive `risk_score +=` mutations are shadowed `let`s; the final
`min(risk_score, 100)` is `min _ 100`. -/
def calculate_risk_score (patient_data : PatientData) : Int :=
  let risk_score : Int := 0
  -- Age factor
  let age := patient_data.age.getD 0
  let risk_score :=
    if age ≥ 70 then risk_score + 30
    else if age ≥ 60 then risk_score + 20
    else if age ≥ 50 then risk_score + 10
    else risk_score
  -- Hypertension
  let risk_score :=
    if patient_data.hypertension = some 1 then risk_score + 15 else risk_score
  -- Heart disease
  let risk_score :=
    if patient_data.heart_disease = some 1 then risk_score + 15 else risk_score
  -- Glucose level
  let glucose := patient_data.avg_glucose_level.getD 0
  let risk_score :=
    if glucose > 200 then risk_score + 20
    else if glucose > 140 then risk_score + 10
    else risk_score
  -- BMI
  let bmi := patient_data.bmi.getD 0
  let risk_score :=
    if bmi ≥ 30 then risk_score + 15
    else if bmi ≥ 25 then risk_score + 5
    else risk_score
  -- Smoking status
  let smoking := patient_data.smoking_status.getD ""
  let risk_score :=
    if smoking = "smokes" then risk_score + 20
    else if smoking = "formerly smoked" then risk_score + 10
    else risk_score
  -- Gender
  let risk_score :=
    if patient_data.gender = some "Male" then risk_score + 5 else risk_score
  min risk_score 100

/-- Spec point table, age factor: ≥70 → 30, 60–69 → 20, 50–59 → 10,
else 0; an absent field contributes its zero default. -/
def spec_age_points : Option ℚ → Int
  | none => 0
  | some a =>
    if a ≥ 70 then 30
    else if 60 ≤ a ∧ a < 70 then 20
    else if 50 ≤ a ∧ a < 60 then 10
    else 0

/-- Spec point table, hypertension factor: value 1 → 15, else 0. -/
def spec_hypertension_points (h : Option Int) : Int :=
  if h = some 1 then 15 else 0

/-- Spec point table, heart-disease factor: value 1 → 15, else 0. -/
def spec_heart_disease_points (h : Option Int) : Int :=
  if h = some 1 then 15 else 0

/-- Spec point table, glucose factor: >200 → 20, >140 and ≤200 → 10,
else 0. -/
def spec_glucose_points : Option ℚ → Int
  | none => 0
  | some g =>
    if g > 200 then 20
    else if 140 < g ∧ g ≤ 200 then 10
    else 0

/-- Spec point table, BMI factor: ≥30 → 15, ≥25 and <30 → 5, else 0. -/
def spec_bmi_points : Option ℚ → Int
  | none => 0
  | some b =>
    if b ≥ 30 then 15
    else if 25 ≤ b ∧ b < 30 then 5
    else 0

/-- Spec point table, smoking factor: "smokes" → 20,
"formerly smoked" → 10, else 0. -/
def spec_smoking_points (sm : Option String) : Int :=
  if sm = some "smokes" then 20
  else if sm = some "formerly smoked" then 10
  else 0

/-- Spec point table, gender factor: "Male" → 5, else 0. -/
def spec_gender_points (g : Option String) : Int :=
  if g = some "Male" then 5 else 0

/-- Sum of the independent per-factor contributions of the spec's point
table. -/
def spec_factor_sum (pd : PatientData) : Int :=
  spec_age_points pd.age + spec_hypertension_points pd.hypertension +
    spec_heart_disease_points pd.heart_disease +
    spec_glucose_points pd.avg_glucose_level + spec_bmi_points pd.bmi +
    spec_smoking_points pd.smoking_status + spec_gender_points pd.gender

/-- The documented middle case: age 55, hypertension 1, heart_disease 0,
glucose 150, bmi 28, "formerly smoked", Male. -/
def middle_case : PatientData :=
  { age := some 55, hypertension := some 1, heart_disease := some 0,
    avg_glucose_level := some 150, bmi := some 28,
    smoking_status := some "formerly smoked", gender := some "Male" }

/-- `q` is obtained from `p` by removing (some subset of) the seven
attribute keys: each field of `q` either equals the corresponding field
of `p` or is absent. -/
def ErasesTo (q p : PatientData) : Prop :=
  (q.age = p.age ∨ q.age = none) ∧
  (q.hypertension = p.hypertension ∨ q.hypertension = none) ∧
  (q.heart_disease = p.heart_disease ∨ q.heart_disease = none) ∧
  (q.avg_glucose_level = p.avg_glucose_level ∨ q.avg_glucose_level = none) ∧
  (q.bmi = p.bmi ∨ q.bmi = none) ∧
  (q.smoking_status = p.smoking_status ∨ q.smoking_status = none) ∧
  (q.gender = p.gender ∨ q.gender = none)

instance (q p : PatientData) : Decidable (ErasesTo q p) := by
  unfold ErasesTo
  infer_instance

/-- `_determine_risk_level` from `src/ml_model/update_data.py` (Policy B):
High if score ≥ 50, Medium if score ≥ 25, else Low. -/
def determine_risk_level (risk_score : Int) : String :=
  if risk_score ≥ 50 then "High"
  else if risk_score ≥ 25 then "Medium"
  else "Low"

/-- A stored patient document, as read by `ml_model/update_data.py`.
`id` models the Mongo `_id`; `patient_id` is the alternate business key.
`none` models an absent key / a stored `None`.  The wall-clock fields
`risk_updated_at` / `updated_at` written by the driver carry no
information any claim depends on and are outside the model. -/
structure Patient where
  id : Nat
  patient_id : Option String := none
  age : Option ℚ := none
  hypertension : Option Int := none
  heart_disease : Option Int := none
  avg_glucose_level : Option ℚ := none
  bmi : Option ℚ := none
  smoking_status : Option String := none
  gender : Option String := none
  risk_score : Option Int := none
  risk_level : Option String := none
deriving DecidableEq

/-- The driver's required-field check
`None in [age, avg_glucose_level, bmi]`. -/
def requiredMissing (p : Patient) : Bool :=
  p.age.isNone || p.avg_glucose_level.isNone || p.bmi.isNone

/-- The field extraction performed by the driver before scoring:
`patient.get('age')` etc., with the source's `.get` defaults
(`hypertension`/`heart_disease` default 0, `smoking_status` default
"Unknown", `gender` default "Male"). -/
def extractAttrs (p : Patient) : PatientData :=
  { age := p.age,
    hypertension := some (p.hypertension.getD 0),
    heart_disease := some (p.heart_disease.getD 0),
    avg_glucose_level := p.avg_glucose_level,
    bmi := p.bmi,
    smoking_status := some (p.smoking_status.getD "Unknown"),
    gender := some (p.gender.getD "Male") }

/-- Modelled from the spec: the scorer `calculate_risk_score` that
`ml_model/update_data.py` imports from `utils.predictions` is not under
`src/`; the spec (§1, §4.1) states the deployed rule-based scoring
formula "is reused identically in three places", so the missing module's
scorer is modelled as the §4.1 point-table formula — the same formula as
`calculate_risk_score` in `backend/api/patients/routes.py` — applied to
the fields the driver extracts. -/
def predictions_calculate_risk_score (p : Patient) : Int :=
  calculate_risk_score (extractAttrs p)

/-- One pending `update_one` prepared by the driver:
`({'_id': ...}, {'$set': {'risk_score': ..., 'risk_level': ...}})`. -/
structure RiskUpdate where
  pid : Nat
  risk_score : Int
  risk_level : String

/-- `update_one({'_id': i}, {'$set': {...}})`: stamp the risk fields on
the first stored record whose `_id` matches. -/
def setRisk (i : Nat) (sc : Int) (lv : String) : List Patient → List Patient
  | [] => []
  | p :: t =>
    if p.id = i then
      { p with risk_score := some sc, risk_level := some lv } :: t
    else p :: setRisk i sc lv t

/-- The abstract record store together with its failure behaviour: which
store round-trips raise.  `countFail` — `count_documents` raises;
`fetchFail s` — the fetch `find().skip(s).limit(b)` raises;
`updateFail i` — `update_one` on the record with `_id = i` raises. -/
structure Store where
  records : List Patient
  countFail : Bool := false
  fetchFail : Nat → Bool := fun _ => false
  updateFail : Nat → Bool := fun _ => false

/-- The driver's per-batch record loop (`for patient in patients_batch`):
returns the pending updates, the number of records skipped for missing
required fields, and the number of records whose update was prepared
(`updated_count` is incremented here, when the update is queued).  The
per-record `try` never fails in the model: the scorer is a total
function (spec §7: no failure inside the scorer ever propagates) and
every stored document has an `_id`. -/
def processBatch (score : Patient → Int) : List Patient → List RiskUpdate × Nat × Nat
  | [] => ([], 0, 0)
  | p :: t =>
    let rest := processBatch score t
    if requiredMissing p then (rest.1, rest.2.1 + 1, rest.2.2)
    else
      ({ pid := p.id, risk_score := score p,
         risk_level := determine_risk_level (score p) } :: rest.1,
       rest.2.1, rest.2.2 + 1)

/-- The driver's update loop (`for query, update in batch_updates`): each
pending update is applied individually; a failing `update_one` increments
`error_count` and the loop continues. -/
def applyUpdates (uFail : Nat → Bool) : List RiskUpdate → List Patient → List Patient × Nat
  | [], recs => (recs, 0)
  | v :: t, recs =>
    if uFail v.pid then
      ((applyUpdates uFail t recs).1, (applyUpdates uFail t recs).2 + 1)
    else
      applyUpdates uFail t (setRisk v.pid v.risk_score v.risk_level recs)

/-- The driver's `while True` pagination loop over the store:
fetch `find().skip(skip).limit(bs)` (its failure, like any statement not
inside an inner `try`, escapes to the outer handler — modelled as
`.error`), stop on an empty batch, otherwise process the batch, apply its
updates, and continue at `skip + bs`.  `u`/`s`/`e` are the running
`updated_count`/`skipped_count`/`error_count`. -/
def sweepLoop (score : Patient → Int) (fFail uFail : Nat → Bool) (bs : Nat)
    (hbs : 0 < bs) (recs : List Patient) (skip : Nat) (u s e : Nat) :
    Except Unit (List Patient × Nat × Nat × Nat) :=
  if fFail skip then .error ()
  else if h : ((recs.drop skip).take bs).isEmpty then .ok (recs, u, s, e)
  else
    let pb := processBatch score ((recs.drop skip).take bs)
    let au := applyUpdates uFail pb.1 recs
    sweepLoop score fFail uFail bs hbs au.1 (skip + bs)
      (u + pb.2.2) (s + pb.2.1) (e + au.2)
termination_by recs.length - skip
decreasing_by
  have hset : ∀ (i : Nat) (sc : Int) (lv : String) (l : List Patient),
      (setRisk i sc lv l).length = l.length := by
    intro i sc lv l
    induction l with
    | nil => rfl
    | cons p t ih =>
      simp only [setRisk]
      split
      · simp
      · simp [ih]
  have happ : ∀ (ups : List RiskUpdate) (l : List Patient),
      ((applyUpdates uFail ups l).1).length = l.length := by
    intro ups
    induction ups with
    | nil => intro l; rfl
    | cons v t ih =>
      intro l
      simp only [applyUpdates]
      split
      · simpa using ih l
      · have hr := ih (setRisk v.pid v.risk_score v.risk_level l)
        rw [hset] at hr
        exact hr
  have hne : ¬ recs.length ≤ skip := by
    intro hle
    have hd : recs.drop skip = [] := List.drop_eq_nil_of_le hle
    simp [hd] at h
  simp only [au, happ]
  omega

/-- The statistics dict returned by `update_all_patients_risk_scores`.
`success_rate` (a Python float computed by true division) is modelled
over `ℚ`. -/
structure BatchOutcome where
  total_patients : Nat
  updated : Nat
  skipped : Nat
  errors : Nat
  success_rate : ℚ
deriving DecidableEq

/-- The dict returned by the driver's outer `except` handler. -/
def failureOutcome : BatchOutcome :=
  { total_patients := 0, updated := 0, skipped := 0, errors := 1,
    success_rate := 0 }

/-- `update_all_patients_risk_scores` from `src/ml_model/update_data.py`:
count the collection, run the pagination sweep, and return the statistics
dict; any exception escaping to the outer handler (a failing
`count_documents` or a failing fetch) yields the zeroed `failureOutcome`.
`batch_size` is the caller's positive batch size (source default 100; the
hypothesis `0 < batch_size` reflects that a `limit(0)` cursor — PyMongo's
"no limit" — would make the source's `while True` loop spin forever). -/
def update_all_patients_risk_scores (score : Patient → Int) (st : Store)
    (batch_size : Nat) (hbs : 0 < batch_size) : BatchOutcome :=
  if st.countFail then failureOutcome
  else
    let total_patients := st.records.length
    match sweepLoop score st.fetchFail st.updateFail batch_size hbs
        st.records 0 0 0 0 with
    | .error _ => failureOutcome
    | .ok (_, u, s, e) =>
      { total_patients := total_patients, updated := u, skipped := s,
        errors := e,
        success_rate :=
          if total_patients > 0 then (u : ℚ) / (total_patients : ℚ) * 100
          else 0 }

/-- The lookup argument of `update_single_patient_risk_score`: either a
Mongo `ObjectId` (primary identity) or a custom `patient_id` string (the
alternate business key) — the source dispatches on
`isinstance(patient_id, ObjectId)`. -/
inductive PatientKey where
  | objectId (i : Nat)
  | businessKey (s : String)

/-- `find_one` on the patients collection for either key. -/
def findOne (recs : List Patient) : PatientKey → Option Patient
  | .objectId i => recs.find? (fun p => p.id == i)
  | .businessKey s => recs.find? (fun p => p.patient_id == some s)

/-- `update_single_patient_risk_score` from `src/ml_model/update_data.py`:
look the record up by primary id or business key; return `None` when no
record matches, `None` when a required field is missing (the missing
field names appear only in a print), otherwise stamp the risk fields via
`update_one` and return the post-update document (when `modified_count`
is 0 — the `$set` changed nothing, timestamps being outside the model —
the source returns the previously fetched document, which then equals the
post-update one).  A raising `update_one` is caught by the function's
`except` handler, which also returns `None`. -/
def update_single_patient_risk_score (score : Patient → Int) (st : Store)
    (key : PatientKey) : Option Patient :=
  match findOne st.records key with
  | none => none
  | some patient =>
    if requiredMissing patient then none
    else
      let risk_score := score patient
      let risk_level := determine_risk_level risk_score
      if st.updateFail patient.id then none
      else if patient.risk_score = some risk_score ∧
          patient.risk_level = some risk_level then
        some patient
      else
        findOne (setRisk patient.id risk_score risk_level st.records)
          (.objectId patient.id)

/-- The per-record effect of one sweep on a stored record: a record with
all required fields present whose update call does not fail gets
`risk_score`/`risk_level` stamped; every other record is left unchanged. -/
def applyFn (score : Patient → Int) (uFail : Nat → Bool) (p : Patient) : Patient :=
  if requiredMissing p || uFail p.id then p
  else { p with risk_score := some (score p),
                risk_level := some (determine_risk_level (score p)) }

/-- Number of records with a missing required field. -/
def countMissing (l : List Patient) : Nat := l.countP requiredMissing

/-- Number of records with all required fields present. -/
def countValid (l : List Patient) : Nat :=
  l.countP (fun p => !requiredMissing p)

/-- Number of records whose update is prepared and whose `update_one`
fails. -/
def countFailedUpdates (uFail : Nat → Bool) (l : List Patient) : Nat :=
  l.countP (fun p => !requiredMissing p && uFail p.id)

/-- Concrete fixture: a valid record with `_id` 1. -/
def fixtureA : Patient :=
  { id := 1, age := some 60, avg_glucose_level := some 100, bmi := some 24 }

/-- Concrete fixture: a valid record with `_id` 2. -/
def fixtureB : Patient :=
  { id := 2, age := some 40, avg_glucose_level := some 100, bmi := some 24 }

/-- Concrete fixture: a two-record store whose `update_one` raises
exactly for the record with `_id` 2. -/
def fixtureFailStore : Store :=
  { records := [fixtureA, fixtureB], updateFail := fun i => i == 2 }

/-- Concrete fixture: a record found by the business key "P1" whose
required `bmi` field is absent. -/
def fixtureMissingBmi : Patient :=
  { id := 3, patient_id := some "P1", age := some 50,
    avg_glucose_level := some 100 }

/-- Concrete fixture: a store holding only `fixtureMissingBmi`. -/
def fixtureMissingStore : Store := { records := [fixtureMissingBmi] }

/-! ### Scorer lemmas -/

lemma riskChain_age (x : Int) (a : Option ℚ) :
    (if a.getD 0 ≥ 70 then x + 30
     else if a.getD 0 ≥ 60 then x + 20
     else if a.getD 0 ≥ 50 then x + 10
     else x) = x + spec_age_points a := by
  rcases a with _ | a
  · simp only [Option.getD_none, spec_age_points]
    norm_num
  · simp only [Option.getD_some, spec_age_points]
    rcases le_or_lt 70 a with h70 | h70
    · rw [if_pos (h70 : a ≥ 70), if_pos (h70 : a ≥ 70)]
    · have hn70 : ¬ a ≥ 70 := not_le.mpr h70
      rcases le_or_lt 60 a with h60 | h60
      · rw [if_neg hn70, if_pos (h60 : a ≥ 60), if_neg hn70,
          if_pos (show 60 ≤ a ∧ a < 70 from ⟨h60, h70⟩)]
      · have hn60 : ¬ a ≥ 60 := not_le.mpr h60
        have hn6070 : ¬ (60 ≤ a ∧ a < 70) := fun hh => absurd hh.1 hn60
        rcases le_or_lt 50 a with h50 | h50
        · rw [if_neg hn70, if_neg hn60, if_pos (h50 : a ≥ 50), if_neg hn70,
            if_neg hn6070, if_pos (show 50 ≤ a ∧ a < 60 from ⟨h50, h60⟩)]
        · have hn50 : ¬ a ≥ 50 := not_le.mpr h50
          have hn5060 : ¬ (50 ≤ a ∧ a < 60) := fun hh => absurd hh.1 hn50
          rw [if_neg hn70, if_neg hn60, if_neg hn50, if_neg hn70,
            if_neg hn6070, if_neg hn5060]
          omega

lemma riskChain_hypertension (x : Int) (h : Option Int) :
    (if h = some 1 then x + 15 else x) = x + spec_hypertension_points h := by
  unfold spec_hypertension_points
  split_ifs <;> omega

lemma riskChain_heart (x : Int) (h : Option Int) :
    (if h = some 1 then x + 15 else x) = x + spec_heart_disease_points h := by
  unfold spec_heart_disease_points
  split_ifs <;> omega

lemma riskChain_glucose (x : Int) (g : Option ℚ) :
    (if g.getD 0 > 200 then x + 20
     else if g.getD 0 > 140 then x + 10
     else x) = x + spec_glucose_points g := by
  rcases g with _ | g
  · simp only [Option.getD_none, spec_glucose_points]
    norm_num
  · simp only [Option.getD_some, spec_glucose_points]
    rcases lt_or_le 200 g with h200 | h200
    · rw [if_pos (h200 : g > 200), if_pos (h200 : g > 200)]
    · have hn200 : ¬ g > 200 := not_lt.mpr h200
      rcases lt_or_le 140 g with h140 | h140
      · rw [if_neg hn200, if_pos (h140 : g > 140), if_neg hn200,
          if_pos (show 140 < g ∧ g ≤ 200 from ⟨h140, h200⟩)]
      · have hn140 : ¬ g > 140 := not_lt.mpr h140
        have hn140200 : ¬ (140 < g ∧ g ≤ 200) := fun hh => absurd hh.1 hn140
        rw [if_neg hn200, if_neg hn140, if_neg hn200, if_neg hn140200]
        omega

lemma riskChain_bmi (x : Int) (b : Option ℚ) :
    (if b.getD 0 ≥ 30 then x + 15
     else if b.getD 0 ≥ 25 then x + 5
     else x) = x + spec_bmi_points b := by
  rcases b with _ | b
  · simp only [Option.getD_none, spec_bmi_points]
    norm_num
  · simp only [Option.getD_some, spec_bmi_points]
    rcases le_or_lt 30 b with h30 | h30
    · rw [if_pos (h30 : b ≥ 30), if_pos (h30 : b ≥ 30)]
    · have hn30 : ¬ b ≥ 30 := not_le.mpr h30
      rcases le_or_lt 25 b with h25 | h25
      · rw [if_neg hn30, if_pos (h25 : b ≥ 25), if_neg hn30,
          if_pos (show 25 ≤ b ∧ b < 30 from ⟨h25, h30⟩)]
      · have hn25 : ¬ b ≥ 25 := not_le.mpr h25
        have hn2530 : ¬ (25 ≤ b ∧ b < 30) := fun hh => absurd hh.1 hn25
        rw [if_neg hn30, if_neg hn25, if_neg hn30, if_neg hn2530]
        omega

lemma riskChain_smoking (x : Int) (sm : Option String) :
    (if sm.getD "" = "smokes" then x + 20
     else if sm.getD "" = "formerly smoked" then x + 10
     else x) = x + spec_smoking_points sm := by
  unfold spec_smoking_points
  rcases sm with _ | v
  · rw [if_neg (by decide), if_neg (by decide), if_neg (by decide),
      if_neg (by decide)]
    omega
  · simp only [Option.getD_some, Option.some.injEq]
    split_ifs <;> omega

lemma riskChain_gender (x : Int) (g : Option String) :
    (if g = some "Male" then x + 5 else x) = x + spec_gender_points g := by
  unfold spec_gender_points
  split_ifs <;> omega

/-- The ordered if/elif chain of the source equals the clamped sum of the
independent per-factor contributions of the spec's point table. -/
lemma calculate_risk_score_decomp (pd : PatientData) :
    calculate_risk_score pd = min (spec_factor_sum pd) 100 := by
  simp only [calculate_risk_score]
  rw [riskChain_age, riskChain_hypertension, riskChain_heart,
    riskChain_glucose, riskChain_bmi, riskChain_smoking, riskChain_gender]
  simp only [spec_factor_sum, spec_hypertension_points,
    spec_heart_disease_points]
  congr 1
  ring

lemma spec_age_points_nonneg (a : Option ℚ) : 0 ≤ spec_age_points a := by
  rcases a with _ | a
  · simp [spec_age_points]
  · simp only [spec_age_points]
    split_ifs <;> omega

lemma spec_hypertension_points_nonneg (h : Option Int) :
    0 ≤ spec_hypertension_points h := by
  unfold spec_hypertension_points
  split <;> omega

lemma spec_heart_disease_points_nonneg (h : Option Int) :
    0 ≤ spec_heart_disease_points h := by
  unfold spec_heart_disease_points
  split <;> omega

lemma spec_glucose_points_nonneg (g : Option ℚ) :
    0 ≤ spec_glucose_points g := by
  rcases g with _ | g
  · simp [spec_glucose_points]
  · simp only [spec_glucose_points]
    split_ifs <;> omega

lemma spec_bmi_points_nonneg (b : Option ℚ) : 0 ≤ spec_bmi_points b := by
  rcases b with _ | b
  · simp [spec_bmi_points]
  · simp only [spec_bmi_points]
    split_ifs <;> omega

lemma spec_smoking_points_nonneg (sm : Option String) :
    0 ≤ spec_smoking_points sm := by
  unfold spec_smoking_points
  split <;> omega

lemma spec_gender_points_nonneg (g : Option String) :
    0 ≤ spec_gender_points g := by
  unfold spec_gender_points
  split <;> omega

lemma spec_factor_sum_nonneg (pd : PatientData) : 0 ≤ spec_factor_sum pd := by
  have h1 := spec_age_points_nonneg pd.age
  have h2 := spec_hypertension_points_nonneg pd.hypertension
  have h3 := spec_heart_disease_points_nonneg pd.heart_disease
  have h4 := spec_glucose_points_nonneg pd.avg_glucose_level
  have h5 := spec_bmi_points_nonneg pd.bmi
  have h6 := spec_smoking_points_nonneg pd.smoking_status
  have h7 := spec_gender_points_nonneg pd.gender
  unfold spec_factor_sum
  omega

lemma spec_age_points_mono {a b : ℚ} (hab : a ≤ b) :
    spec_age_points (some a) ≤ spec_age_points (some b) := by
  have hb := spec_age_points_nonneg (some b)
  simp only [spec_age_points] at hb ⊢
  rcases le_or_lt 70 a with h70a | h70a
  · rw [if_pos (show a ≥ 70 from h70a),
      if_pos (show b ≥ 70 from le_trans h70a hab)]
  · rw [if_neg (not_le.mpr h70a)]
    rcases le_or_lt 60 a with h60a | h60a
    · rw [if_pos (show 60 ≤ a ∧ a < 70 from ⟨h60a, h70a⟩)]
      rcases le_or_lt 70 b with h70b | h70b
      · rw [if_pos (show b ≥ 70 from h70b)]
        omega
      · rw [if_neg (not_le.mpr h70b),
          if_pos (show 60 ≤ b ∧ b < 70 from ⟨le_trans h60a hab, h70b⟩)]
    · rw [if_neg (fun hh : 60 ≤ a ∧ a < 70 => absurd hh.1 (not_le.mpr h60a))]
      rcases le_or_lt 50 a with h50a | h50a
      · rw [if_pos (show 50 ≤ a ∧ a < 60 from ⟨h50a, h60a⟩)]
        rcases le_or_lt 70 b with h70b | h70b
        · rw [if_pos (show b ≥ 70 from h70b)]
          omega
        · rw [if_neg (not_le.mpr h70b)]
          rcases le_or_lt 60 b with h60b | h60b
          · rw [if_pos (show 60 ≤ b ∧ b < 70 from ⟨h60b, h70b⟩)]
            omega
          · rw [if_neg
                (fun hh : 60 ≤ b ∧ b < 70 => absurd hh.1 (not_le.mpr h60b)),
              if_pos (show 50 ≤ b ∧ b < 60 from ⟨le_trans h50a hab, h60b⟩)]
      · rw [if_neg (fun hh : 50 ≤ a ∧ a < 60 => absurd hh.1 (not_le.mpr h50a))]
        exact hb

/-! ### Claim theorems about the scorer and the classifier -/

/-- C1: for every input attribute map (over any values the comparison
chain accepts, in range or not), `calculate_risk_score` returns
`min(S, 100)` where `S` is the sum of the independent per-factor
contributions of the spec's point table; hence the result is an integer
in `[0, 100]`; and the documented middle case (age 55, hypertension 1,
heart_disease 0, glucose 150, bmi 28, "formerly smoked", Male) yields
exactly 55. -/
theorem calculate_risk_score_point_table :
    (∀ pd : PatientData,
      calculate_risk_score pd = min (spec_factor_sum pd) 100 ∧
      0 ≤ calculate_risk_score pd ∧ calculate_risk_score pd ≤ 100) ∧
    calculate_risk_score middle_case = 55 := by
  refine ⟨fun pd => ⟨calculate_risk_score_decomp pd, ?_, ?_⟩, by decide⟩
  · rw [calculate_risk_score_decomp]
    exact le_min (spec_factor_sum_nonneg pd) (by norm_num)
  · rw [calculate_risk_score_decomp]
    exact min_le_right _ _

/-- C2: the Policy B classifier `_determine_risk_level` of the batch
recomputation engine maps every integer score to exactly one of "High",
"Medium", "Low": "High" iff score ≥ 50, "Medium" iff 25 ≤ score < 50,
"Low" iff score < 25, and it never produces "Unknown". -/
theorem determine_risk_level_partition : ∀ s : Int,
    (determine_risk_level s = "High" ↔ 50 ≤ s) ∧
    (determine_risk_level s = "Medium" ↔ 25 ≤ s ∧ s < 50) ∧
    (determine_risk_level s = "Low" ↔ s < 25) ∧
    determine_risk_level s ≠ "Unknown" ∧
    (determine_risk_level s = "High" ∨ determine_risk_level s = "Medium" ∨
      determine_risk_level s = "Low") := by
  intro s
  unfold determine_risk_level
  split_ifs with h1 h2
  · exact ⟨iff_of_true rfl h1, iff_of_false (by decide) (by omega),
      iff_of_false (by decide) (by omega), by decide, Or.inl rfl⟩
  · exact ⟨iff_of_false (by decide) (by omega),
      iff_of_true rfl ⟨h2, by omega⟩, iff_of_false (by decide) (by omega),
      by decide, Or.inr (Or.inl rfl)⟩
  · exact ⟨iff_of_false (by decide) (by omega),
      iff_of_false (by decide) (by omega), iff_of_true rfl (by omega),
      by decide, Or.inr (Or.inr rfl)⟩

/-- C6: the scorer never fails on partial input (it is a total function
of the attribute map); each absent field contributes the zero default of
its factor; and removing any subset of fields never increases the
score. -/
theorem calculate_risk_score_missing_fields :
    (∀ p q : PatientData, ErasesTo q p →
      calculate_risk_score q ≤ calculate_risk_score p) ∧
    spec_age_points none = 0 ∧ spec_hypertension_points none = 0 ∧
    spec_heart_disease_points none = 0 ∧ spec_glucose_points none = 0 ∧
    spec_bmi_points none = 0 ∧ spec_smoking_points none = 0 ∧
    spec_gender_points none = 0 ∧ calculate_risk_score {} = 0 := by
  refine ⟨?_, by decide, by decide, by decide, by decide, by decide,
    by decide, by decide, by decide⟩
  intro p q hq
  rw [calculate_risk_score_decomp, calculate_risk_score_decomp]
  refine min_le_min ?_ le_rfl
  unfold spec_factor_sum
  obtain ⟨h1, h2, h3, h4, h5, h6, h7⟩ := hq
  have g1 : spec_age_points q.age ≤ spec_age_points p.age := by
    rcases h1 with h | h
    · rw [h]
    · rw [h]
      exact spec_age_points_nonneg _
  have g2 : spec_hypertension_points q.hypertension ≤
      spec_hypertension_points p.hypertension := by
    rcases h2 with h | h
    · rw [h]
    · rw [h]
      exact spec_hypertension_points_nonneg _
  have g3 : spec_heart_disease_points q.heart_disease ≤
      spec_heart_disease_points p.heart_disease := by
    rcases h3 with h | h
    · rw [h]
    · rw [h]
      exact spec_heart_disease_points_nonneg _
  have g4 : spec_glucose_points q.avg_glucose_level ≤
      spec_glucose_points p.avg_glucose_level := by
    rcases h4 with h | h
    · rw [h]
    · rw [h]
      exact spec_glucose_points_nonneg _
  have g5 : spec_bmi_points q.bmi ≤ spec_bmi_points p.bmi := by
    rcases h5 with h | h
    · rw [h]
    · rw [h]
      exact spec_bmi_points_nonneg _
  have g6 : spec_smoking_points q.smoking_status ≤
      spec_smoking_points p.smoking_status := by
    rcases h6 with h | h
    · rw [h]
    · rw [h]
      exact spec_smoking_points_nonneg _
  have g7 : spec_gender_points q.gender ≤ spec_gender_points p.gender := by
    rcases h7 with h | h
    · rw [h]
    · rw [h]
      exact spec_gender_points_nonneg _
  omega

/-- Witness for C6 at a concrete input: removing `age` and `bmi` from the
documented middle case only lowers (or keeps) the score. -/
theorem calculate_risk_score_missing_fields_witness :
    ErasesTo { middle_case with age := none, bmi := none } middle_case ∧
    calculate_risk_score { middle_case with age := none, bmi := none } ≤
      calculate_risk_score middle_case :=
  ⟨by decide,
    calculate_risk_score_missing_fields.1 middle_case
      { middle_case with age := none, bmi := none } (by decide)⟩

/-- C7: with the other six attributes fixed, increasing age never
decreases the value of `calculate_risk_score`. -/
theorem calculate_risk_score_age_monotone :
    ∀ (pd : PatientData) (a b : ℚ), a ≤ b →
      calculate_risk_score { pd with age := some a } ≤
        calculate_risk_score { pd with age := some b } := by
  intro pd a b hab
  rw [calculate_risk_score_decomp, calculate_risk_score_decomp]
  refine min_le_min ?_ le_rfl
  unfold spec_factor_sum
  dsimp only
  have hage := spec_age_points_mono hab
  omega

/-- Witness for C7 at the documented boundary 49 → 50. -/
theorem calculate_risk_score_age_monotone_witness :
    (49 : ℚ) ≤ 50 ∧
    calculate_risk_score { middle_case with age := some 49 } ≤
      calculate_risk_score { middle_case with age := some 50 } :=
  ⟨by norm_num,
    calculate_risk_score_age_monotone middle_case 49 50 (by norm_num)⟩

/-! ### Batch driver lemmas -/

lemma setRisk_length (i : Nat) (sc : Int) (lv : String) :
    ∀ l : List Patient, (setRisk i sc lv l).length = l.length := by
  intro l
  induction l with
  | nil => rfl
  | cons p t ih =>
    simp only [setRisk]
    split
    · simp
    · simp [ih]

lemma applyUpdates_fst_length (uFail : Nat → Bool) :
    ∀ (ups : List RiskUpdate) (l : List Patient),
      ((applyUpdates uFail ups l).1).length = l.length := by
  intro ups
  induction ups with
  | nil => intro l; rfl
  | cons v t ih =>
    intro l
    simp only [applyUpdates]
    split
    · simpa using ih l
    · have hr := ih (setRisk v.pid v.risk_score v.risk_level l)
      rw [setRisk_length] at hr
      exact hr

lemma setRisk_missing_map (i : Nat) (sc : Int) (lv : String) :
    ∀ l : List Patient,
      (setRisk i sc lv l).map requiredMissing = l.map requiredMissing := by
  intro l
  induction l with
  | nil => rfl
  | cons p t ih =>
    simp only [setRisk]
    split
    · simp only [List.map_cons]
      rfl
    · simp only [List.map_cons, ih]

lemma applyUpdates_missing_map (uFail : Nat → Bool) :
    ∀ (ups : List RiskUpdate) (l : List Patient),
      ((applyUpdates uFail ups l).1).map requiredMissing
        = l.map requiredMissing := by
  intro ups
  induction ups with
  | nil => intro l; rfl
  | cons v t ih =>
    intro l
    simp only [applyUpdates]
    split
    · simpa using ih l
    · have hr := ih (setRisk v.pid v.risk_score v.risk_level l)
      rw [setRisk_missing_map] at hr
      exact hr

lemma applyUpdates_snd_noFail (uFail : Nat → Bool) (hu : ∀ i, uFail i = false) :
    ∀ (ups : List RiskUpdate) (l : List Patient),
      (applyUpdates uFail ups l).2 = 0 := by
  intro ups
  induction ups with
  | nil => intro l; rfl
  | cons v t ih =>
    intro l
    simp only [applyUpdates, hu v.pid, Bool.false_eq_true, if_false]
    exact ih _

lemma countMissing_map_congr {l₁ l₂ : List Patient}
    (h : l₁.map requiredMissing = l₂.map requiredMissing) :
    countMissing l₁ = countMissing l₂ := by
  unfold countMissing
  have e1 : List.countP (fun b => b) (l₁.map requiredMissing)
      = List.countP requiredMissing l₁ := List.countP_map _ _ _
  have e2 : List.countP (fun b => b) (l₂.map requiredMissing)
      = List.countP requiredMissing l₂ := List.countP_map _ _ _
  rw [← e1, h, e2]

lemma countValid_map_congr {l₁ l₂ : List Patient}
    (h : l₁.map requiredMissing = l₂.map requiredMissing) :
    countValid l₁ = countValid l₂ := by
  unfold countValid
  have e1 : List.countP (fun b => !b) (l₁.map requiredMissing)
      = List.countP (fun p => !requiredMissing p) l₁ := List.countP_map _ _ _
  have e2 : List.countP (fun b => !b) (l₂.map requiredMissing)
      = List.countP (fun p => !requiredMissing p) l₂ := List.countP_map _ _ _
  rw [← e1, h, e2]

lemma countValid_add_countMissing (l : List Patient) :
    countMissing l + countValid l = l.length := by
  unfold countMissing countValid
  induction l with
  | nil => rfl
  | cons p t ih =>
    cases hm : requiredMissing p <;>
      simp [List.countP_cons, hm] <;> omega

lemma processBatch_skipped (score : Patient → Int) :
    ∀ l : List Patient, (processBatch score l).2.1 = countMissing l := by
  intro l
  induction l with
  | nil => rfl
  | cons p t ih =>
    cases hm : requiredMissing p <;>
      simp [processBatch, hm, countMissing, List.countP_cons, ih,
        countMissing.eq_def]

lemma processBatch_updated (score : Patient → Int) :
    ∀ l : List Patient, (processBatch score l).2.2 = countValid l := by
  intro l
  induction l with
  | nil => rfl
  | cons p t ih =>
    cases hm : requiredMissing p <;>
      simp [processBatch, hm, countValid, List.countP_cons, ih,
        countValid.eq_def]

lemma countMissing_split (l : List Patient) (skip bs : Nat) :
    countMissing (l.drop skip)
      = countMissing ((l.drop skip).take bs) + countMissing (l.drop (skip + bs)) := by
  unfold countMissing
  conv_lhs => rw [← List.take_append_drop bs (l.drop skip)]
  rw [List.countP_append, List.drop_drop]

lemma countValid_split (l : List Patient) (skip bs : Nat) :
    countValid (l.drop skip)
      = countValid ((l.drop skip).take bs) + countValid (l.drop (skip + bs)) := by
  unfold countValid
  conv_lhs => rw [← List.take_append_drop bs (l.drop skip)]
  rw [List.countP_append, List.drop_drop]

/-- No fetch failure and no update failure: the sweep terminates with the
skip/valid counts of the records from `skip` on, and no errors. `cur` is
the current (possibly already restamped) state of the collection; only
its missing-field profile — equal to the original's — matters for the
counts. -/
lemma sweepLoop_counts (score : Patient → Int) (fFail uFail : Nat → Bool)
    (bs : Nat) (hbs : 0 < bs)
    (hf : ∀ i, fFail i = false) (hu : ∀ i, uFail i = false) :
    ∀ (m : Nat) (orig cur : List Patient) (skip u s e : Nat),
      cur.map requiredMissing = orig.map requiredMissing →
      orig.length - skip ≤ m →
      ∃ fin, sweepLoop score fFail uFail bs hbs cur skip u s e =
        .ok (fin, u + countValid (orig.drop skip),
          s + countMissing (orig.drop skip), e) := by
  intro m
  induction m with
  | zero =>
    intro orig cur skip u s e hrel hm
    have hlen : cur.length = orig.length := by
      have := congrArg List.length hrel
      simpa using this
    have hdropc : cur.drop skip = [] := List.drop_eq_nil_of_le (by omega)
    have hdropo : orig.drop skip = [] := List.drop_eq_nil_of_le (by omega)
    refine ⟨cur, ?_⟩
    rw [sweepLoop, hf skip]
    simp [hdropc, hdropo, countValid, countMissing]
  | succ m ih =>
    intro orig cur skip u s e hrel hm
    have hlen : cur.length = orig.length := by
      have := congrArg List.length hrel
      simpa using this
    by_cases hempty : ((cur.drop skip).take bs).isEmpty
    · have hdropc : cur.drop skip = [] := by
        rcases List.take_eq_nil_iff.mp (List.isEmpty_iff.mp hempty) with h0 | h0
        · omega
        · exact h0
      have hdropo : orig.drop skip = [] := by
        have : cur.length ≤ skip := List.drop_eq_nil_iff.mp hdropc
        exact List.drop_eq_nil_of_le (by omega)
      refine ⟨cur, ?_⟩
      rw [sweepLoop, hf skip]
      simp [hdropc, hdropo, countValid, countMissing]
    · have hskip : skip < cur.length := by
        by_contra hge
        have : cur.drop skip = [] := List.drop_eq_nil_of_le (by omega)
        simp [this] at hempty
      have hrel_batch : ((cur.drop skip).take bs).map requiredMissing
          = ((orig.drop skip).take bs).map requiredMissing := by
        rw [List.map_take, List.map_drop, hrel, ← List.map_drop, ← List.map_take]
      have hrel' : ((applyUpdates uFail
            (processBatch score ((cur.drop skip).take bs)).1 cur).1).map
            requiredMissing = orig.map requiredMissing := by
        rw [applyUpdates_missing_map, hrel]
      obtain ⟨fin, hrec⟩ := ih orig
        (applyUpdates uFail (processBatch score ((cur.drop skip).take bs)).1 cur).1
        (skip + bs)
        (u + (processBatch score ((cur.drop skip).take bs)).2.2)
        (s + (processBatch score ((cur.drop skip).take bs)).2.1)
        (e + (applyUpdates uFail (processBatch score ((cur.drop skip).take bs)).1 cur).2)
        hrel' (by omega)
      refine ⟨fin, ?_⟩
      rw [sweepLoop, hf skip]
      simp only [Bool.false_eq_true, if_false, hempty, dite_false]
      rw [hrec]
      rw [processBatch_updated, processBatch_skipped,
        applyUpdates_snd_noFail uFail hu,
        countValid_map_congr hrel_batch, countMissing_map_congr hrel_batch,
        countValid_split orig skip bs, countMissing_split orig skip bs]
      simp only [Nat.add_assoc, Nat.add_zero]

/-! ### Claim theorems about the batch driver -/

/-- C3: over a store of N records of which M miss at least one required
field (age, avg_glucose_level, bmi), a sweep with no store failure
reports skipped = M, updated = N - M, and no errors: a missing required
field is a skip, never an error.  The scorer is an arbitrary (total)
function: spec §7 guarantees no failure inside the scorer propagates. -/
theorem recompute_all_counts (score : Patient → Int) (st : Store)
    (bs : Nat) (hbs : 0 < bs)
    (hc : st.countFail = false)
    (hf : ∀ i, st.fetchFail i = false)
    (hu : ∀ i, st.updateFail i = false) :
    (update_all_patients_risk_scores score st bs hbs).skipped
        = countMissing st.records ∧
    (update_all_patients_risk_scores score st bs hbs).updated
        = st.records.length - countMissing st.records ∧
    (update_all_patients_risk_scores score st bs hbs).errors = 0 := by
  obtain ⟨fin, hrun⟩ := sweepLoop_counts score st.fetchFail st.updateFail bs hbs
    hf hu st.records.length st.records st.records 0 0 0 0 rfl (by omega)
  have hcnt := countValid_add_countMissing st.records
  unfold update_all_patients_risk_scores
  rw [hc]
  simp only [Bool.false_eq_true, if_false]
  rw [List.drop_zero] at hrun
  rw [hrun]
  simp only [Nat.zero_add]
  refine ⟨by trivial, by omega, by trivial⟩

/-- Witness for C3: a two-record store (one record missing `bmi`, one
complete), batch size 1, no failures: skipped 1, updated 1, errors 0. -/
theorem recompute_all_counts_witness :
    (({ records := [{ id := 1, age := some 40, avg_glucose_level := some 90 },
        { id := 2, age := some 40, avg_glucose_level := some 90,
          bmi := some 22 }] } : Store).countFail = false) ∧
    (update_all_patients_risk_scores predictions_calculate_risk_score
      { records := [{ id := 1, age := some 40, avg_glucose_level := some 90 },
        { id := 2, age := some 40, avg_glucose_level := some 90,
          bmi := some 22 }] } 1 (by decide)).skipped
        = countMissing [{ id := 1, age := some 40, avg_glucose_level := some 90 },
            { id := 2, age := some 40, avg_glucose_level := some 90,
              bmi := some 22 }] ∧
    (update_all_patients_risk_scores predictions_calculate_risk_score
      { records := [{ id := 1, age := some 40, avg_glucose_level := some 90 },
        { id := 2, age := some 40, avg_glucose_level := some 90,
          bmi := some 22 }] } 1 (by decide)).updated
        = 2 - countMissing [{ id := 1, age := some 40, avg_glucose_level := some 90 },
            { id := 2, age := some 40, avg_glucose_level := some 90,
              bmi := some 22 }] := by
  have h := recompute_all_counts predictions_calculate_risk_score
    { records := [{ id := 1, age := some 40, avg_glucose_level := some 90 },
      { id := 2, age := some 40, avg_glucose_level := some 90,
        bmi := some 22 }] } 1 (by decide) rfl (fun _ => rfl) (fun _ => rfl)
  exact ⟨rfl, h.1, h.2.1⟩

/-- C9: `success_rate` equals `updated / total_patients * 100` whenever
`total_patients > 0` and is exactly 0 when `total_patients = 0`; on an
empty store the sweep completes with the all-zero outcome (no
division-by-zero failure). -/
theorem recompute_all_success_rate (score : Patient → Int) (st : Store)
    (bs : Nat) (hbs : 0 < bs) :
    ((update_all_patients_risk_scores score st bs hbs).total_patients = 0 →
      (update_all_patients_risk_scores score st bs hbs).success_rate = 0) ∧
    (0 < (update_all_patients_risk_scores score st bs hbs).total_patients →
      (update_all_patients_risk_scores score st bs hbs).success_rate =
        ((update_all_patients_risk_scores score st bs hbs).updated : ℚ) /
          ((update_all_patients_risk_scores score st bs
              hbs).total_patients : ℚ) * 100) ∧
    (st.records = [] → st.countFail = false → st.fetchFail 0 = false →
      update_all_patients_risk_scores score st bs hbs =
        { total_patients := 0, updated := 0, skipped := 0, errors := 0,
          success_rate := 0 }) := by
  refine ⟨?_, ?_, ?_⟩
  · unfold update_all_patients_risk_scores
    split
    · intro _
      rfl
    · split
      · intro _
        rfl
      · intro h
        simp only [] at h ⊢
        rw [if_neg (by omega)]
  · unfold update_all_patients_risk_scores
    split
    · intro h
      simp [failureOutcome] at h
    · split
      · intro h
        simp [failureOutcome] at h
      · intro h
        simp only [] at h ⊢
        rw [if_pos (by omega)]
  · intro hrec hc hf0
    unfold update_all_patients_risk_scores
    rw [hc]
    simp only [Bool.false_eq_true, if_false]
    rw [sweepLoop, hf0]
    simp only [hrec, List.drop_nil, List.take_nil, List.isEmpty_nil,
      Bool.false_eq_true, if_false, dite_true]
    simp [hrec]

/-- Witness for C9: the empty store, batch size 1, no failures. -/
theorem recompute_all_success_rate_witness :
    update_all_patients_risk_scores predictions_calculate_risk_score
      { records := [] } 1 (by decide) =
      { total_patients := 0, updated := 0, skipped := 0, errors := 0,
        success_rate := 0 } :=
  (recompute_all_success_rate predictions_calculate_risk_score
    { records := [] } 1 (by decide)).2.2 rfl rfl rfl

/-- C4: the driver never raises — the exception flow is modelled
explicitly and every store behaviour yields a `BatchOutcome`: either the
outer handler's `failureOutcome` or a populated outcome whose
`total_patients` is the store's record count — and a total failure to
reach the store (a raising `count_documents`) yields exactly
{total_patients 0, updated 0, skipped 0, errors 1, success_rate 0}. -/
theorem recompute_all_total_and_abort (score : Patient → Int) (st : Store)
    (bs : Nat) (hbs : 0 < bs) :
    (st.countFail = true →
      update_all_patients_risk_scores score st bs hbs = failureOutcome) ∧
    (update_all_patients_risk_scores score st bs hbs = failureOutcome ∨
      (update_all_patients_risk_scores score st bs hbs).total_patients
        = st.records.length) := by
  unfold update_all_patients_risk_scores
  split
  · exact ⟨fun _ => rfl, Or.inl rfl⟩
  · rename_i hcf
    refine ⟨fun hct => absurd hct hcf, ?_⟩
    split
    · exact Or.inl rfl
    · exact Or.inr rfl

/-- Witness for C4: a store whose `count_documents` raises. -/
theorem recompute_all_total_and_abort_witness :
    update_all_patients_risk_scores predictions_calculate_risk_score
      { records := [], countFail := true } 1 (by decide) = failureOutcome :=
  (recompute_all_total_and_abort predictions_calculate_risk_score
    { records := [], countFail := true } 1 (by decide)).1 rfl

/-! ### Per-record effect of the sweep under unique record ids -/

lemma applyFn_id (score : Patient → Int) (uFail : Nat → Bool) (p : Patient) :
    (applyFn score uFail p).id = p.id := by
  unfold applyFn
  split <;> rfl

lemma nodup_not_mem_of_append_cons {xs ys : List Nat} {y : Nat}
    (h : (xs ++ y :: ys).Nodup) : y ∉ xs := by
  rcases List.nodup_append.mp h with ⟨_, _, hdisj⟩
  intro hy
  exact hdisj hy (List.mem_cons_self _ _)

lemma setRisk_append_none (i : Nat) (sc : Int) (lv : String) :
    ∀ (pre rest : List Patient), i ∉ pre.map Patient.id →
      setRisk i sc lv (pre ++ rest) = pre ++ setRisk i sc lv rest := by
  intro pre
  induction pre with
  | nil => intro rest _; rfl
  | cons q t ih =>
    intro rest hmem
    have hq : ¬ q.id = i := by
      intro he
      exact hmem (by simp [he])
    simp only [List.cons_append, setRisk, hq, if_false]
    congr 1
    exact ih rest (by
      intro hmm
      exact hmem (by simp [hmm]))

lemma setRisk_cons_self {p : Patient} {i : Nat} (hp : p.id = i)
    (sc : Int) (lv : String) (rest : List Patient) :
    setRisk i sc lv (p :: rest)
      = { p with risk_score := some sc, risk_level := some lv } :: rest := by
  simp only [setRisk, hp, if_true]

lemma countFailedUpdates_split (uFail : Nat → Bool) (l : List Patient)
    (skip bs : Nat) :
    countFailedUpdates uFail (l.drop skip)
      = countFailedUpdates uFail ((l.drop skip).take bs)
        + countFailedUpdates uFail (l.drop (skip + bs)) := by
  unfold countFailedUpdates
  conv_lhs => rw [← List.take_append_drop bs (l.drop skip)]
  rw [List.countP_append, List.drop_drop]

/-- Applying the pending updates of one batch: with globally unique
record ids, each pending update restamps exactly its own record, a
failing update contributes one error and leaves its record unchanged. -/
lemma applyUpdates_processBatch (score : Patient → Int) (uFail : Nat → Bool) :
    ∀ (batch pre post : List Patient),
      ((pre ++ batch ++ post).map Patient.id).Nodup →
      applyUpdates uFail (processBatch score batch).1 (pre ++ batch ++ post)
        = (pre ++ batch.map (applyFn score uFail) ++ post,
           countFailedUpdates uFail batch) := by
  intro batch
  induction batch with
  | nil =>
    intro pre post _
    simp [processBatch, applyUpdates, countFailedUpdates]
  | cons p t ih =>
    intro pre post hnd
    have hassoc : pre ++ (p :: t) ++ post = (pre ++ [p]) ++ t ++ post := by
      simp
    cases hm : requiredMissing p with
    | true =>
      have hnd' : (((pre ++ [p]) ++ t ++ post).map Patient.id).Nodup := by
        rw [← hassoc]
        exact hnd
      have hF : applyFn score uFail p = p := by
        simp [applyFn, hm]
      simp only [processBatch, hm, if_true]
      rw [hassoc, ih (pre ++ [p]) post hnd']
      simp only [countFailedUpdates, List.countP_cons, hm, Bool.not_true,
        Bool.false_and, if_false, List.map_cons, hF]
      simp [countFailedUpdates]
    | false =>
      have hF0 : (requiredMissing p || uFail p.id) = uFail p.id := by
        rw [hm, Bool.false_or]
      cases hfail : uFail p.id with
      | true =>
        have hnd' : (((pre ++ [p]) ++ t ++ post).map Patient.id).Nodup := by
          rw [← hassoc]
          exact hnd
        have hF : applyFn score uFail p = p := by
          unfold applyFn
          rw [hF0, hfail, if_pos rfl]
        simp only [processBatch, hm, Bool.false_eq_true, if_false,
          applyUpdates, hfail, if_pos]
        rw [hassoc, ih (pre ++ [p]) post hnd']
        simp only [countFailedUpdates, List.countP_cons, hm, hfail,
          List.map_cons, hF]
        simp [countFailedUpdates]
      | false =>
        have hL : pre ++ (p :: t) ++ post = pre ++ (p :: (t ++ post)) := by
          simp
        have hndids :
            (pre.map Patient.id ++ p.id :: (t ++ post).map Patient.id).Nodup := by
          simpa using hnd
        have hnotmem : p.id ∉ pre.map Patient.id :=
          nodup_not_mem_of_append_cons hndids
        have hF : applyFn score uFail p
            = { p with
                risk_score := some (score p),
                risk_level := some (determine_risk_level (score p)) } := by
          unfold applyFn
          rw [hF0, hfail, if_neg (by simp)]
        simp only [processBatch, hm, Bool.false_eq_true, if_false,
          applyUpdates, hfail]
        rw [hL, setRisk_append_none p.id (score p)
            (determine_risk_level (score p)) pre (p :: (t ++ post)) hnotmem,
          setRisk_cons_self rfl]
        have hre : pre ++ ({ p with
              risk_score := some (score p),
              risk_level := some (determine_risk_level (score p)) }
                :: (t ++ post))
            = (pre ++ [{ p with
                risk_score := some (score p),
                risk_level := some (determine_risk_level (score p)) }]) ++ t
              ++ post := by
          simp
        rw [hre]
        have hnd' : (((pre ++ [{ p with
              risk_score := some (score p),
              risk_level := some (determine_risk_level (score p)) }]) ++ t
              ++ post).map Patient.id).Nodup := by
          have hsame : ((pre ++ [{ p with
                risk_score := some (score p),
                risk_level := some (determine_risk_level (score p)) }]) ++ t
                  ++ post).map Patient.id
              = (pre ++ (p :: t) ++ post).map Patient.id := by
            simp
          rw [hsame]
          exact hnd
        rw [ih _ post hnd']
        simp only [countFailedUpdates, List.countP_cons, hm, hfail,
          List.map_cons, hF]
        simp [countFailedUpdates]

lemma take_add_split (l : List Patient) (skip bs : Nat) :
    l.take (skip + bs) = l.take skip ++ (l.drop skip).take bs := by
  rw [List.take_drop]
  have h1 : l.take skip = (l.take (skip + bs)).take skip := by
    rw [List.take_take]
    congr 1
    omega
  rw [h1, List.take_append_drop]

/-- A full sweep over a collection with unique `_id`s, with no fetch
failure: starting from the state where the records before `skip` are
already restamped, the loop ends in the state where every record is
restamped (per `applyFn`), with the counts of the records from `skip`
on added to the accumulators. -/
lemma sweepLoop_run (score : Patient → Int) (fFail uFail : Nat → Bool)
    (bs : Nat) (hbs : 0 < bs) (recs : List Patient)
    (hnd : (recs.map Patient.id).Nodup) (hf : ∀ i, fFail i = false) :
    ∀ (m skip u s e : Nat), recs.length - skip ≤ m →
      sweepLoop score fFail uFail bs hbs
          ((recs.take skip).map (applyFn score uFail) ++ recs.drop skip)
          skip u s e
        = .ok (recs.map (applyFn score uFail),
            u + countValid (recs.drop skip),
            s + countMissing (recs.drop skip),
            e + countFailedUpdates uFail (recs.drop skip)) := by
  intro m
  induction m with
  | zero =>
    intro skip u s e hm
    have hdrop : recs.drop skip = [] := List.drop_eq_nil_of_le (by omega)
    have htake : recs.take skip = recs := List.take_of_length_le (by omega)
    have hdropm : (recs.map (applyFn score uFail)).drop skip = [] :=
      List.drop_eq_nil_of_le (by simp; omega)
    rw [sweepLoop, hf skip]
    simp [hdrop, htake, hdropm, countValid, countMissing, countFailedUpdates]
  | succ m ih =>
    intro skip u s e hm
    rcases le_or_lt recs.length skip with hge | hlt
    · have hdrop : recs.drop skip = [] := List.drop_eq_nil_of_le hge
      have htake : recs.take skip = recs := List.take_of_length_le hge
      have hdropm : (recs.map (applyFn score uFail)).drop skip = [] :=
        List.drop_eq_nil_of_le (by simp; omega)
      rw [sweepLoop, hf skip]
      simp [hdrop, htake, hdropm, countValid, countMissing,
        countFailedUpdates]
    · have hlenpre :
          ((recs.take skip).map (applyFn score uFail)).length = skip := by
        simp [List.length_take]
        omega
      have hdropcur :
          (((recs.take skip).map (applyFn score uFail)
            ++ recs.drop skip)).drop skip = recs.drop skip :=
        List.drop_left' hlenpre
      have hdropne : recs.drop skip ≠ [] := by
        intro hnil
        have := List.drop_eq_nil_iff.mp hnil
        omega
      have hbatchne : ¬ ((recs.drop skip).take bs).isEmpty = true := by
        intro hie
        rcases List.take_eq_nil_iff.mp (List.isEmpty_iff.mp hie) with h0 | h0
        · omega
        · exact hdropne h0
      have hBpost : (recs.drop skip).take bs ++ recs.drop (skip + bs)
          = recs.drop skip := by
        rw [← List.drop_drop bs skip recs]
        exact List.take_append_drop bs (recs.drop skip)
      have hcur : (recs.take skip).map (applyFn score uFail) ++ recs.drop skip
          = (recs.take skip).map (applyFn score uFail)
            ++ (recs.drop skip).take bs ++ recs.drop (skip + bs) := by
        rw [List.append_assoc, hBpost]
      have hids : (((recs.take skip).map (applyFn score uFail)
            ++ (recs.drop skip).take bs ++ recs.drop (skip + bs)).map
            Patient.id).Nodup := by
        have hsame : ((recs.take skip).map (applyFn score uFail)
              ++ (recs.drop skip).take bs ++ recs.drop (skip + bs)).map
              Patient.id
            = recs.map Patient.id := by
          simp only [List.map_append, List.map_map]
          rw [show List.map (Patient.id ∘ applyFn score uFail) (recs.take skip)
                = List.map Patient.id (recs.take skip) from
              List.map_congr_left (fun x _ => applyFn_id score uFail x)]
          rw [List.append_assoc, ← List.map_append, hBpost,
            ← List.map_append, List.take_append_drop]
        rw [hsame]
        exact hnd
      rw [sweepLoop, hf skip]
      simp only [Bool.false_eq_true, if_false]
      rw [hdropcur, dif_neg hbatchne]
      rw [hcur, applyUpdates_processBatch score uFail
        ((recs.drop skip).take bs)
        ((recs.take skip).map (applyFn score uFail))
        (recs.drop (skip + bs)) hids]
      dsimp only
      rw [processBatch_updated, processBatch_skipped]
      have hnext : (recs.take skip).map (applyFn score uFail)
            ++ ((recs.drop skip).take bs).map (applyFn score uFail)
            ++ recs.drop (skip + bs)
          = (recs.take (skip + bs)).map (applyFn score uFail)
            ++ recs.drop (skip + bs) := by
        rw [take_add_split recs skip bs, List.map_append]
      rw [hnext, ih (skip + bs) _ _ _ (by omega)]
      rw [countValid_split recs skip bs, countMissing_split recs skip bs,
        countFailedUpdates_split uFail recs skip bs]
      simp only [Nat.add_assoc]

lemma countFailedUpdates_unique (uFail : Nat → Bool) (k : Nat)
    (hu : ∀ i, uFail i = (i == k)) :
    ∀ (s t : List Patient) (p0 : Patient),
      p0.id = k → requiredMissing p0 = false →
      ((s ++ p0 :: t).map Patient.id).Nodup →
      countFailedUpdates uFail (s ++ p0 :: t) = 1 := by
  intro s t p0 hid hmiss hnd
  have hndids : (s.map Patient.id ++ p0.id :: t.map Patient.id).Nodup := by
    simpa using hnd
  have hks : p0.id ∉ s.map Patient.id := nodup_not_mem_of_append_cons hndids
  have hkt : p0.id ∉ t.map Patient.id :=
    (List.Nodup.of_append_right hndids).not_mem
  unfold countFailedUpdates
  rw [List.countP_append, List.countP_cons]
  have hs : List.countP (fun p => !requiredMissing p && uFail p.id) s = 0 := by
    rw [List.countP_eq_zero]
    intro q hq
    have hqk : q.id ≠ k := by
      intro he
      exact hks (by
        rw [hid, ← he]
        exact List.mem_map_of_mem Patient.id hq)
    simp [hu, hqk]
  have ht : List.countP (fun p => !requiredMissing p && uFail p.id) t = 0 := by
    rw [List.countP_eq_zero]
    intro q hq
    have hqk : q.id ≠ k := by
      intro he
      exact hkt (by
        rw [hid, ← he]
        exact List.mem_map_of_mem Patient.id hq)
    simp [hu, hqk]
  rw [hs, ht]
  simp [hu, hid, hmiss]

/-- Core of the one-failing-update scenario: `update_one` raises exactly
for the record with id `k` (a present, valid record), nothing else fails:
the sweep restamps every other valid record, and the outcome counts the
failing record both in `updated` (queued before the write) and in
`errors`. -/
lemma sweep_one_failure (score : Patient → Int) (st : Store)
    (bs : Nat) (hbs : 0 < bs) (k : Nat)
    (hc : st.countFail = false)
    (hf : ∀ i, st.fetchFail i = false)
    (hu : ∀ i, st.updateFail i = (i == k))
    (hnd : (st.records.map Patient.id).Nodup)
    (hmem : ∃ p0, p0 ∈ st.records ∧ p0.id = k ∧ requiredMissing p0 = false) :
    sweepLoop score st.fetchFail st.updateFail bs hbs st.records 0 0 0 0
      = .ok (st.records.map (applyFn score st.updateFail),
          countValid st.records, countMissing st.records, 1) ∧
    update_all_patients_risk_scores score st bs hbs
      = { total_patients := st.records.length,
          updated := countValid st.records,
          skipped := countMissing st.records,
          errors := 1,
          success_rate := if st.records.length > 0 then
              (countValid st.records : ℚ) / (st.records.length : ℚ) * 100
            else 0 } := by
  obtain ⟨p0, hp0mem, hp0id, hp0miss⟩ := hmem
  obtain ⟨s, t, hst⟩ := List.append_of_mem hp0mem
  have hcf1 : countFailedUpdates st.updateFail st.records = 1 := by
    rw [hst]
    exact countFailedUpdates_unique st.updateFail k hu s t p0 hp0id hp0miss
      (by rw [← hst]; exact hnd)
  have hrun := sweepLoop_run score st.fetchFail st.updateFail bs hbs
    st.records hnd hf st.records.length 0 0 0 0 (by omega)
  simp only [List.take_zero, List.map_nil, List.nil_append, List.drop_zero]
    at hrun
  rw [hcf1] at hrun
  simp only [Nat.zero_add] at hrun
  refine ⟨hrun, ?_⟩
  unfold update_all_patients_risk_scores
  rw [hc]
  simp only [Bool.false_eq_true, if_false]
  rw [hrun]

/-- C5: fault isolation — when the per-record update call raises for
exactly one (present, valid) record and nothing else fails, the sweep
reports `errors = 1` and every other record, in that batch and in all
later batches, is still processed: the final store state is the original
list with every valid record other than the failing one restamped with
its computed `risk_score`/`risk_level`.  Record ids are unique (Mongo's
`_id`). -/
theorem recompute_all_fault_isolation (score : Patient → Int) (st : Store)
    (bs : Nat) (hbs : 0 < bs) (k : Nat)
    (hc : st.countFail = false)
    (hf : ∀ i, st.fetchFail i = false)
    (hu : ∀ i, st.updateFail i = (i == k))
    (hnd : (st.records.map Patient.id).Nodup)
    (hmem : ∃ p0, p0 ∈ st.records ∧ p0.id = k ∧ requiredMissing p0 = false) :
    (update_all_patients_risk_scores score st bs hbs).errors = 1 ∧
    (update_all_patients_risk_scores score st bs hbs).updated
      = countValid st.records ∧
    (update_all_patients_risk_scores score st bs hbs).skipped
      = countMissing st.records ∧
    sweepLoop score st.fetchFail st.updateFail bs hbs st.records 0 0 0 0
      = .ok (st.records.map (applyFn score st.updateFail),
          countValid st.records, countMissing st.records, 1) ∧
    (∀ p ∈ st.records, requiredMissing p = false → p.id ≠ k →
      applyFn score st.updateFail p
        = { p with
            risk_score := some (score p),
            risk_level := some (determine_risk_level (score p)) }) := by
  obtain ⟨hsweep, hout⟩ :=
    sweep_one_failure score st bs hbs k hc hf hu hnd hmem
  refine ⟨by rw [hout], by rw [hout], by rw [hout], hsweep, ?_⟩
  intro p _ hpmiss hpk
  unfold applyFn
  rw [if_neg (by simp [hpmiss, hu, hpk])]

/-- Witness for C5: two valid records, ids 1 and 2; the update for id 2
fails; batch size 1. -/
theorem recompute_all_fault_isolation_witness :
    (update_all_patients_risk_scores predictions_calculate_risk_score
      fixtureFailStore 1 (by decide)).errors = 1 ∧
    (update_all_patients_risk_scores predictions_calculate_risk_score
      fixtureFailStore 1 (by decide)).updated
      = countValid fixtureFailStore.records := by
  have h := recompute_all_fault_isolation predictions_calculate_risk_score
    fixtureFailStore 1 (by decide) 2 rfl (fun _ => rfl)
    (fun _ => rfl) (by decide) ⟨fixtureB, by decide, rfl, rfl⟩
  exact ⟨h.1, h.2.1⟩

/-- C10 (implicit): `updated_count` is incremented when the update is
queued, before the per-record write is attempted; a failing write adds an
error but does not decrement `updated_count`, so the failing record is
counted both as updated and as an error, its stored document is left
unchanged, and `updated` (hence `success_rate`) counts prepared updates,
not persisted ones. -/
theorem recompute_updated_counts_prepared (score : Patient → Int) (st : Store)
    (bs : Nat) (hbs : 0 < bs) (k : Nat)
    (hc : st.countFail = false)
    (hf : ∀ i, st.fetchFail i = false)
    (hu : ∀ i, st.updateFail i = (i == k))
    (hnd : (st.records.map Patient.id).Nodup)
    (hmem : ∃ p0, p0 ∈ st.records ∧ p0.id = k ∧ requiredMissing p0 = false) :
    (update_all_patients_risk_scores score st bs hbs).errors = 1 ∧
    (update_all_patients_risk_scores score st bs hbs).updated
      = countValid st.records ∧
    (update_all_patients_risk_scores score st bs hbs).updated
        + (update_all_patients_risk_scores score st bs hbs).skipped
      = st.records.length ∧
    (0 < st.records.length →
      (update_all_patients_risk_scores score st bs hbs).success_rate
        = (countValid st.records : ℚ) / (st.records.length : ℚ) * 100) ∧
    (∀ p ∈ st.records, p.id = k → applyFn score st.updateFail p = p) := by
  obtain ⟨_, hout⟩ := sweep_one_failure score st bs hbs k hc hf hu hnd hmem
  have hsum := countValid_add_countMissing st.records
  refine ⟨by rw [hout], by rw [hout], by rw [hout]; simpa using by omega, ?_, ?_⟩
  · intro hpos
    rw [hout]
    simp only []
    rw [if_pos (by omega)]
  · intro p _ hpk
    unfold applyFn
    rw [if_pos (by simp [hu, hpk])]

/-- Witness for C10: same two-record store; the failing record (id 2) is
still counted in `updated` (both records are counted), and `errors` is
1. -/
theorem recompute_updated_counts_prepared_witness :
    (update_all_patients_risk_scores predictions_calculate_risk_score
        fixtureFailStore 1 (by decide)).updated
      + (update_all_patients_risk_scores predictions_calculate_risk_score
        fixtureFailStore 1 (by decide)).skipped
      = fixtureFailStore.records.length ∧
    (update_all_patients_risk_scores predictions_calculate_risk_score
      fixtureFailStore 1 (by decide)).errors = 1 := by
  have h := recompute_updated_counts_prepared predictions_calculate_risk_score
    fixtureFailStore 1 (by decide) 2 rfl (fun _ => rfl)
    (fun _ => rfl) (by decide) ⟨fixtureB, by decide, rfl, rfl⟩
  exact ⟨h.2.2.1, h.1⟩

/-! ### Single-record recomputation -/

lemma mem_of_findOne_eq_some {recs : List Patient} {key : PatientKey}
    {p : Patient} (h : findOne recs key = some p) : p ∈ recs := by
  cases key with
  | objectId i => exact List.mem_of_find?_eq_some h
  | businessKey s => exact List.mem_of_find?_eq_some h

lemma findOne_setRisk_self {recs : List Patient}
    (hnd : (recs.map Patient.id).Nodup) {p : Patient} (hp : p ∈ recs)
    (sc : Int) (lv : String) :
    findOne (setRisk p.id sc lv recs) (.objectId p.id)
      = some { p with risk_score := some sc, risk_level := some lv } := by
  obtain ⟨s, t, rfl⟩ := List.append_of_mem hp
  have hndids : (s.map Patient.id ++ p.id :: t.map Patient.id).Nodup := by
    simpa using hnd
  have hks : p.id ∉ s.map Patient.id := nodup_not_mem_of_append_cons hndids
  rw [setRisk_append_none p.id sc lv s (p :: t) hks, setRisk_cons_self rfl]
  simp only [findOne]
  rw [List.find?_append]
  have hfs : s.find? (fun q => q.id == p.id) = none := by
    rw [List.find?_eq_none]
    intro q hq
    simp only [beq_iff_eq]
    intro he
    exact hks (he ▸ List.mem_map_of_mem Patient.id hq)
  rw [hfs]
  simp [List.find?]

/-- C8 amended: single-record recomputation returns the post-update
record when the looked-up record (by primary id or by the alternate
business key) exists with all required fields present and its write does
not fail; it returns `None` when no record matches; and it returns the
same `None` when a required field is missing — the missing field names
appear only in a log print, so the two failure outcomes are not
distinguishable by the returned value. -/
theorem update_single_contract (score : Patient → Int) (st : Store)
    (key : PatientKey) (hnd : (st.records.map Patient.id).Nodup) :
    (findOne st.records key = none →
      update_single_patient_risk_score score st key = none) ∧
    (∀ p, findOne st.records key = some p → requiredMissing p = true →
      update_single_patient_risk_score score st key = none) ∧
    (∀ p, findOne st.records key = some p → requiredMissing p = false →
      st.updateFail p.id = false →
      update_single_patient_risk_score score st key
        = some { p with
            risk_score := some (score p),
            risk_level := some (determine_risk_level (score p)) }) := by
  refine ⟨?_, ?_, ?_⟩
  · intro h
    unfold update_single_patient_risk_score
    rw [h]
  · intro p hp hm
    unfold update_single_patient_risk_score
    rw [hp]
    simp [hm]
  · intro p hp hm hupd
    unfold update_single_patient_risk_score
    rw [hp]
    simp only [hm, Bool.false_eq_true, if_false, hupd]
    split
    · rename_i hcond
      obtain ⟨h1, h2⟩ := hcond
      rw [← h1, ← h2]
    · exact findOne_setRisk_self hnd (mem_of_findOne_eq_some hp) _ _

/-- Witness for C8 (amended) at a concrete store: the single record with
`_id` 1 is found, scored and returned restamped. -/
theorem update_single_contract_witness :
    update_single_patient_risk_score predictions_calculate_risk_score
      { records := [fixtureA] } (.objectId 1)
      = some { fixtureA with
          risk_score := some (predictions_calculate_risk_score fixtureA),
          risk_level := some (determine_risk_level
            (predictions_calculate_risk_score fixtureA)) } :=
  (update_single_contract predictions_calculate_risk_score
    { records := [fixtureA] } (.objectId 1) (by decide)).2.2 fixtureA
    (by decide) rfl rfl

/-- C8 counterexample: the claim asserts the not-found and missing-fields
outcomes are distinguishable to the caller, but the source returns `None`
in both cases: an empty store (no match for "P1") and a store whose "P1"
record lacks `bmi` produce identical results. -/
theorem update_single_failures_indistinguishable :
    update_single_patient_risk_score predictions_calculate_risk_score
      { records := [] } (.businessKey "P1") = none ∧
    update_single_patient_risk_score predictions_calculate_risk_score
      fixtureMissingStore (.businessKey "P1") = none ∧
    update_single_patient_risk_score predictions_calculate_risk_score
      { records := [] } (.businessKey "P1")
      = update_single_patient_risk_score predictions_calculate_risk_score
        fixtureMissingStore (.businessKey "P1") := by
  refine ⟨rfl, ?_, ?_⟩ <;> decide
